import Mathlib

/-!
Shallow embedding of `air_quality_crawler.py` (class `AirQualityCrawler`):
the fetch-with-retry helper `get_html`, the landing-page city extractor
`parse_cities`, the station-table extractor `parse_stations`, and the
phase-2 orchestrator `crawl_phase2`, together with theorems settling the
specification's claims about them.
-/

/-- Model of Python `str.strip()`: drop leading and trailing whitespace. -/
def pyStrip (s : String) : String :=
  ⟨((s.data.dropWhile Char.isWhitespace).reverse.dropWhile Char.isWhitespace).reverse⟩

/-- Model of Python `url.startswith("/")`. -/
def startsWithSlash (s : String) : Bool :=
  match s.data with
  | '/' :: _ => true
  | _ => false

/-- Href normalisation of `parse_cities` (line 138 of the source):
`url if url.startswith("/") else f"/\x7burl\x7d"`. -/
def normHref (u : String) : String :=
  if startsWithSlash u then u else "/" ++ u

/-- First-match lookup in an association list; models reading a key of a
Python `dict` under the representation used below, which keeps keys unique. -/
def alookup {α : Type} (k : String) : List (String × α) → Option α
  | [] => none
  | p :: ps => if p.1 == k then some p.2 else alookup k ps

/-- `ofirst a b` is `a` unless `a` is `none`, in which case it is `b`. -/
def ofirst {α : Type} : Option α → Option α → Option α
  | some v, _ => some v
  | none, b => b

/-- Model of the Python `dict` assignment `d[k] = v` on an insertion-ordered
dictionary represented as an association list with unique keys: overwrite in
place when the key exists, append otherwise. -/
def dictInsert {α : Type} (d : List (String × α)) (k : String) (v : α) :
    List (String × α) :=
  if d.any (fun p => p.1 == k) then
    d.map (fun p => if p.1 == k then (k, v) else p)
  else
    d ++ [(k, v)]

/-- Repeated `dictInsert`, folding a list of key/value assignments in order. -/
def applyPairs {α : Type} (d : List (String × α)) :
    List (String × α) → List (String × α)
  | [] => d
  | p :: ps => applyPairs (dictInsert d p.1 p.2) ps

/-- Outcome of one transport attempt inside `get_html`: an HTTP response
(status code and decoded body) or a `requests.exceptions.RequestException`. -/
inductive TransportResult where
  | response : Nat → String → TransportResult
  | exn : TransportResult
deriving DecidableEq

/-- The sleeps `get_html` performs, in order: the per-attempt jitter
`time.sleep(random.uniform(0.5, 1.5))` and the exponential backoff
`time.sleep(2 ** retries)`. -/
inductive SleepEvent where
  | jitter : SleepEvent
  | backoff : Nat → SleepEvent
deriving DecidableEq

/-- `self.max_retries`, set to `3` in `__init__`. -/
def max_retries : Nat := 3

/-- `AirQualityCrawler.get_html`, with the network abstracted as a function
from the current retry counter to that attempt's `TransportResult`.  Returns
the `Option`al body (`None` on exhaustion) together with the ordered trace of
sleeps performed. -/
def get_html (transport : Nat → TransportResult) (retries : Nat) :
    Option String × List SleepEvent :=
  match transport retries with
  | .response status text =>
    if status = 200 then
      (some text, [SleepEvent.jitter])
    else if h : retries < max_retries then
      let rest := get_html transport (retries + 1)
      (rest.1, SleepEvent.jitter :: SleepEvent.backoff (2 ^ retries) :: rest.2)
    else
      (none, [SleepEvent.jitter])
  | .exn =>
    if h : retries < max_retries then
      let rest := get_html transport (retries + 1)
      (rest.1, SleepEvent.jitter :: SleepEvent.backoff (2 ^ retries) :: rest.2)
    else
      (none, [SleepEvent.jitter])
termination_by max_retries - retries
decreasing_by all_goals omega

/-- Attempt `n` of `transport` does not yield an HTTP 200 success. -/
def failsAt (transport : Nat → TransportResult) (n : Nat) : Prop :=
  ∀ s t, transport n = TransportResult.response s t → s ≠ 200

/-- A hyperlink element as seen by `parse_cities`: its text, and its `href`
attribute, `none` when the attribute is missing (in which case the Python
subscript `link["href"]` raises `KeyError`). -/
structure ALink where
  text : String
  href : Option String
deriving DecidableEq

/-- The extraction-relevant view of the landing page produced by
`BeautifulSoup`: for each `<p>` whose text matches `^[A-Z]\.`, the links of
its parent container (`letterSections`); the link lists of the forward
siblings of the parent of the first text node containing `重点城市`
(`keyCities`, `none` when no such text node exists); and for each `<table>`,
its rows, each row holding its links in document order (`tables`). -/
structure LandingPage where
  letterSections : List (List ALink)
  keyCities : Option (List (List ALink))
  tables : List (List (List ALink))
deriving DecidableEq

/-- A city entry `(name, href)`. -/
abbrev City := String × String

/-- Heuristic 1 inner loop (source lines 104-107): append every link of an
alphabetic section as a city, with no duplicate check. -/
def collectLinks1 (cities : List City) : List ALink → Except String (List City)
  | [] => .ok cities
  | l :: ls =>
    match l.href with
    | none => .error "KeyError: href"
    | some u => collectLinks1 (cities ++ [(pyStrip l.text, u)]) ls

/-- Heuristic 1 outer loop (source lines 98-107) over the alphabetic
sections. -/
def collectSections1 (cities : List City) :
    List (List ALink) → Except String (List City)
  | [] => .ok cities
  | s :: ss =>
    match collectLinks1 cities s with
    | .error e => .error e
    | .ok c => collectSections1 c ss

/-- Heuristics 2/3 inner step (source lines 117-122): read the link's text
and href (the href subscript may raise), then append it only when no
previously collected city has the identical name. -/
def collectLinksD (cities : List City) : List ALink → Except String (List City)
  | [] => .ok cities
  | l :: ls =>
    match l.href with
    | none => .error "KeyError: href"
    | some u =>
      let name := pyStrip l.text
      if cities.any (fun c => c.1 == name) then collectLinksD cities ls
      else collectLinksD (cities ++ [(name, u)]) ls

/-- Heuristic 2 outer loop (source lines 115-122) over the forward siblings
of the `重点城市` region. -/
def collectGroupsD (cities : List City) :
    List (List ALink) → Except String (List City)
  | [] => .ok cities
  | g :: gs =>
    match collectLinksD cities g with
    | .error e => .error e
    | .ok c => collectGroupsD c gs

/-- Heuristic 3 inner loop (source lines 128-135): for each remaining table
row take its first link, if any, and append it under the same duplicate
check as heuristic 2. -/
def collectTableRows (cities : List City) :
    List (List ALink) → Except String (List City)
  | [] => .ok cities
  | row :: rows =>
    match row.head? with
    | none => collectTableRows cities rows
    | some l =>
      match l.href with
      | none => .error "KeyError: href"
      | some u =>
        let name := pyStrip l.text
        if cities.any (fun c => c.1 == name) then collectTableRows cities rows
        else collectTableRows (cities ++ [(name, u)]) rows

/-- Heuristic 3 outer loop (source lines 125-135) over all tables, skipping
each table's header row (`find_all("tr")[1:]`). -/
def collectTables (cities : List City) :
    List (List (List ALink)) → Except String (List City)
  | [] => .ok cities
  | t :: ts =>
    match collectTableRows cities (t.drop 1) with
    | .error e => .error e
    | .ok c => collectTables c ts

/-- The `try` body of `parse_cities` (source lines 92-140): the three
heuristics in order, then href normalisation; `Except.error` models an
escaping exception. -/
def parse_citiesE (page : LandingPage) : Except String (List City) :=
  match collectSections1 [] page.letterSections with
  | .error e => .error e
  | .ok c1 =>
    match
      (match page.keyCities with
       | none => Except.ok c1
       | some sibs => collectGroupsD c1 sibs) with
    | .error e => .error e
    | .ok c2 =>
      match collectTables c2 page.tables with
      | .error e => .error e
      | .ok c3 => .ok (c3.map (fun c => (c.1, normHref c.2)))

/-- `AirQualityCrawler.parse_cities`.  The input is `none` when the html
argument is falsy (`None` or the empty string, source line 87); any
exception inside the `try` block yields `[]` (source lines 141-143). -/
def parse_cities (html : Option LandingPage) : List City :=
  match html with
  | none => []
  | some page =>
    match parse_citiesE page with
    | .error _ => []
    | .ok cs => cs

/-- A table cell as seen by `parse_stations`: whether it is a `<th>` (as
opposed to a `<td>`), and its text. -/
structure Cell where
  isTh : Bool
  text : String
deriving DecidableEq

/-- A `<table>` element: its `<tr>` rows, each a list of cells in column
order. -/
structure STable where
  rows : List (List Cell)
deriving DecidableEq

/-- The extraction-relevant view of a city detail page: its `<table>`
elements in document order. -/
structure StationPage where
  tables : List STable
deriving DecidableEq

/-- One monitoring station's readings: a field-label / value mapping
(insertion-ordered, unique keys). -/
abbrev StationRecord := List (String × String)

/-- Header-driven record construction (source lines 185-192): for each data
cell `cols[i]` with `i < len(headers)`, assign `station_data[headers[i]] =
cols[i].text.strip()`. -/
def buildRecord (headers : List String) (cols : List Cell) : StationRecord :=
  cols.enum.foldl
    (fun d ic =>
      match headers.get? ic.1 with
      | some h => dictInsert d h (pyStrip ic.2.text)
      | none => d)
    []

/-- The key/value assignments performed by `buildRecord`, in order. -/
def headerPairs (headers : List String) (cols : List Cell) :
    List (String × String) :=
  cols.enum.filterMap
    (fun ic => (headers.get? ic.1).map (fun h => (h, pyStrip ic.2.text)))

/-- The six keys of the fixed fallback mapping (source lines 205-212). -/
def sixFieldKeys : List String :=
  ["监测站", "AQI", "空气质量等级", "PM2.5", "PM10", "首要污染物"]

/-- Fallback record (source lines 195-212), reached only with
`len(cols) >= 3`: columns 0-2 are read unconditionally, columns 3-5 default
to `"N/A"` when absent. -/
def fallbackRecord (cols : List Cell) : StationRecord :=
  match cols with
  | c0 :: c1 :: c2 :: rest =>
    [("监测站", pyStrip c0.text),
     ("AQI", pyStrip c1.text),
     ("空气质量等级", pyStrip c2.text),
     ("PM2.5", ((rest.get? 0).map (fun c => pyStrip c.text)).getD "N/A"),
     ("PM10", ((rest.get? 1).map (fun c => pyStrip c.text)).getD "N/A"),
     ("首要污染物", ((rest.get? 2).map (fun c => pyStrip c.text)).getD "N/A")]
  | _ => []

/-- `AirQualityCrawler.parse_stations`.  The input is `none` when the html
argument is falsy (source line 155).  The first table is authoritative;
headers come from the first row's `th`/`td` cells, data cells are the `td`
cells of each later row, rows with fewer than 3 data cells are skipped, and
an empty header-driven record falls back to the fixed six-field mapping. -/
def parse_stations (html : Option StationPage) (_cityName : String) :
    List StationRecord :=
  match html with
  | none => []
  | some page =>
    match page.tables with
    | [] => []
    | table :: _ =>
      let rows := table.rows
      if rows.length ≤ 1 then []
      else
        let headers := (rows.headD []).map (fun c => pyStrip c.text)
        (rows.drop 1).foldl
          (fun stations row =>
            let cols := row.filter (fun c => !c.isTh)
            if 3 ≤ cols.length then
              let station_data := buildRecord headers cols
              let station_data :=
                if station_data = [] then fallbackRecord cols else station_data
              stations ++ [station_data]
            else stations)
          []

/-- One phase-2 step for city `c = (name, relativeUrl)` (source lines
265-283), with `get_html` on the joined URL abstracted as the oracle
`fetchS` on the relative URL (the transport is external): `none` when the
fetch failed or the extracted station list was empty, otherwise the pair to
store. -/
def citySuccess (fetchS : String → Option StationPage) (c : City) :
    Option (String × List StationRecord) :=
  match fetchS c.2 with
  | none => none
  | some page =>
    let stations := parse_stations (some page) c.1
    if stations = [] then none else some (c.1, stations)

/-- The phase-2 accumulation loop (source lines 265-283): skip a city on
fetch failure or empty station list, otherwise `all_stations[city_name] =
stations`. -/
def crawl_phase2_loop (fetchS : String → Option StationPage)
    (acc : List (String × List StationRecord)) :
    List City → List (String × List StationRecord)
  | [] => acc
  | c :: cs =>
    match fetchS c.2 with
    | none => crawl_phase2_loop fetchS acc cs
    | some page =>
      let stations := parse_stations (some page) c.1
      if stations = [] then crawl_phase2_loop fetchS acc cs
      else crawl_phase2_loop fetchS (dictInsert acc c.1 stations) cs

/-- `AirQualityCrawler.crawl_phase2`: returns `none` (Python `None`, source
lines 256-258) on an empty city list, otherwise the accumulated
`all_stations` mapping. -/
def crawl_phase2 (fetchS : String → Option StationPage) (cities : List City) :
    Option (List (String × List StationRecord)) :=
  if cities = [] then none
  else some (crawl_phase2_loop fetchS [] cities)

/-- A landing page whose single alphabetic section lists the same city name
twice (two links with equal text). -/
def dupPage : LandingPage :=
  { letterSections := [[⟨"X", some "/x"⟩, ⟨"X", some "/y"⟩]],
    keyCities := none,
    tables := [] }

/-- A landing page exercising all three heuristics with duplicate names
across heuristics: the key-cities region and the ranking table repeat `A`. -/
def mixedPage : LandingPage :=
  { letterSections := [[⟨"A", some "/a"⟩]],
    keyCities := some [[⟨"A", some "/dup"⟩, ⟨"B", some "b2"⟩]],
    tables := [[[⟨"hdr", some "/hdr"⟩], [⟨"A", some "/dup2"⟩], [⟨"C", some "/c"⟩]]] }

/-- A landing page whose alphabetic section holds one good link and then a
link with no `href` attribute. -/
def errPage : LandingPage :=
  { letterSections := [[⟨"A", some "/a"⟩, ⟨"B", none⟩]],
    keyCities := none,
    tables := [] }

/-- The spec's end-to-end scenario: one alphabetic section containing
`<a href="city/beijing">Beijing</a>`. -/
def bjPage : LandingPage :=
  { letterSections := [[⟨"Beijing", some "city/beijing"⟩]],
    keyCities := none,
    tables := [] }

/-- A city page whose first table has an empty header row and one data row
with exactly three `td` cells. -/
def fallbackPage : StationPage :=
  ⟨[⟨[[], [⟨false, "s1"⟩, ⟨false, "50"⟩, ⟨false, "良"⟩]]⟩]⟩

/-- A city page whose first table has a header row and zero data rows. -/
def headerOnlyPage : StationPage :=
  ⟨[⟨[[⟨true, "监测站"⟩, ⟨true, "AQI"⟩]]⟩]⟩

/-- A city page with header `["Station","AQI","Level"]` and one data row
`["StationX","50","Good"]` (the spec's scenario). -/
def stationPageA : StationPage :=
  ⟨[⟨[[⟨true, "Station"⟩, ⟨true, "AQI"⟩, ⟨true, "Level"⟩],
      [⟨false, "StationX"⟩, ⟨false, "50"⟩, ⟨false, "Good"⟩]]⟩]⟩

/-- A second city page with one data row `["StationY","60","Mod"]`. -/
def stationPageB : StationPage :=
  ⟨[⟨[[⟨true, "Station"⟩, ⟨true, "AQI"⟩, ⟨true, "Level"⟩],
      [⟨false, "StationY"⟩, ⟨false, "60"⟩, ⟨false, "Mod"⟩]]⟩]⟩

/-- A fetch oracle where only `/s` succeeds (with `stationPageA`). -/
def fetchOnlyS : String → Option StationPage :=
  fun u => if u = "/s" then some stationPageA else none

/-- A fetch oracle where `/1` and `/2` both succeed, with different pages. -/
def fetchBoth : String → Option StationPage :=
  fun u =>
    if u = "/1" then some stationPageA
    else if u = "/2" then some stationPageB
    else none

/-- A transport that raises on every attempt. -/
def alwaysExn : Nat → TransportResult := fun _ => TransportResult.exn

/-- A transport that raises on the first two attempts and then returns an
HTTP 200 response with body `"BODY"`. -/
def failTwice : Nat → TransportResult :=
  fun n => if n < 2 then TransportResult.exn else TransportResult.response 200 "BODY"

theorem ofirst_none_right {α : Type} (a : Option α) : ofirst a none = a := by
  cases a <;> rfl

theorem alookup_append {α : Type} (k : String) (l1 l2 : List (String × α)) :
    alookup k (l1 ++ l2) = ofirst (alookup k l1) (alookup k l2) := by
  induction l1 with
  | nil => simp [alookup, ofirst]
  | cons p ps ih =>
    cases hpk : p.1 == k
    · simp [alookup, hpk, ih]
    · simp [alookup, hpk, ofirst]

theorem alookup_eq_none {α : Type} (k : String) (d : List (String × α)) :
    alookup k d = none ↔ ∀ p ∈ d, p.1 ≠ k := by
  induction d with
  | nil => simp [alookup]
  | cons p ps ih =>
    cases hpk : p.1 == k
    · have hne : p.1 ≠ k := by
        intro hh
        rw [hh] at hpk
        simp at hpk
      simp [alookup, hpk, ih, hne]
    · have heq : p.1 = k := eq_of_beq hpk
      simp [alookup, hpk, heq]

theorem exists_alookup_of_any {α : Type} (k : String) (d : List (String × α))
    (h : d.any (fun p => p.1 == k) = true) : ∃ w, alookup k d = some w := by
  cases halo : alookup k d with
  | some w => exact ⟨w, rfl⟩
  | none =>
    rw [List.any_eq_true] at h
    obtain ⟨p, hp, hpk⟩ := h
    exact absurd (eq_of_beq hpk) ((alookup_eq_none k d).mp halo p hp)

theorem alookup_replace {α : Type} (k k2 : String) (v : α)
    (d : List (String × α)) :
    alookup k2 (d.map (fun p => if p.1 == k then (k, v) else p)) =
      if k = k2 then Option.map (fun _ => v) (alookup k2 d)
      else alookup k2 d := by
  induction d with
  | nil => by_cases hk : k = k2 <;> simp [alookup, hk]
  | cons p ps ih =>
    cases hpk : p.1 == k
    · have hne : p.1 ≠ k := by
        intro hh
        rw [hh] at hpk
        simp at hpk
      cases hpk2 : p.1 == k2
      · simp [alookup, hpk, hpk2, ih, -beq_iff_eq]
      · have heq2 : p.1 = k2 := eq_of_beq hpk2
        have hk : k ≠ k2 := by
          intro hh
          exact hne (by rw [hh, ← heq2])
        simp [alookup, hpk, hpk2, hk, -beq_iff_eq]
    · have heq : p.1 = k := eq_of_beq hpk
      by_cases hk : k = k2
      · subst hk
        simp [alookup, hpk, heq, -beq_iff_eq]
      · have hpk2 : (p.1 == k2) = false := by
          rw [heq]
          simp [hk]
        simp [alookup, hpk, hpk2, hk, ih, -beq_iff_eq]

theorem dictInsert_append_of_not_mem {α : Type} (k : String) (v : α)
    (d : List (String × α)) (h : k ∉ d.map Prod.fst) :
    dictInsert d k v = d ++ [(k, v)] := by
  have hany : d.any (fun p => p.1 == k) = false := by
    rw [List.any_eq_false]
    intro p hp
    simp only [beq_iff_eq]
    intro hh
    exact h (hh ▸ List.mem_map_of_mem Prod.fst hp)
  simp [dictInsert, hany]

theorem alookup_dictInsert {α : Type} (k k2 : String) (v : α)
    (d : List (String × α)) :
    alookup k2 (dictInsert d k v) = if k = k2 then some v else alookup k2 d := by
  unfold dictInsert
  cases hany : d.any (fun p => p.1 == k)
  · simp only [Bool.false_eq_true, if_false]
    rw [alookup_append]
    by_cases hk : k = k2
    · subst hk
      have hnone : alookup k d = none := by
        rw [alookup_eq_none]
        intro p hp hpk
        have : d.any (fun q => q.1 == k) = true := by
          rw [List.any_eq_true]
          exact ⟨p, hp, by simp [hpk]⟩
        rw [hany] at this
        exact Bool.false_ne_true this
      simp [hnone, alookup, ofirst]
    · have htail : alookup k2 [(k, v)] = none := by
        simp [alookup, beq_eq_false_iff_ne, Ne.symm, hk]
      rw [htail, ofirst_none_right]
      simp [hk]
  · simp only [if_true]
    rw [alookup_replace]
    by_cases hk : k = k2
    · subst hk
      obtain ⟨w, hw⟩ := exists_alookup_of_any k d hany
      simp [hw]
    · simp [hk]

theorem map_fst_replace {α : Type} (k : String) (v : α)
    (d : List (String × α)) :
    (d.map (fun p => if p.1 == k then (k, v) else p)).map Prod.fst =
      d.map Prod.fst := by
  induction d with
  | nil => rfl
  | cons p ps ih =>
    cases hpk : p.1 == k
    · simp only [List.map_cons]
      rw [if_neg (by simp [hpk]), ih]
    · simp only [List.map_cons]
      rw [if_pos hpk, ih]
      simp [eq_of_beq hpk]

theorem nodup_keys_dictInsert {α : Type} (k : String) (v : α)
    (d : List (String × α)) (h : (d.map Prod.fst).Nodup) :
    ((dictInsert d k v).map Prod.fst).Nodup := by
  unfold dictInsert
  cases hany : d.any (fun p => p.1 == k)
  · simp only [Bool.false_eq_true, if_false]
    rw [List.map_append, List.nodup_append]
    refine ⟨h, by simp, ?_⟩
    intro x hx
    simp only [List.map_cons, List.map_nil, List.mem_singleton]
    intro hxk
    subst hxk
    rw [List.any_eq_false] at hany
    simp only [List.mem_map] at hx
    obtain ⟨p, hp, hpk⟩ := hx
    exact hany p hp (by simp [hpk])
  · simp only [if_true]
    rw [map_fst_replace]
    exact h

theorem alookup_applyPairs {α : Type} (k : String) (d : List (String × α))
    (ps : List (String × α)) :
    alookup k (applyPairs d ps) =
      ofirst (alookup k ps.reverse) (alookup k d) := by
  induction ps generalizing d with
  | nil => simp [applyPairs, alookup, ofirst]
  | cons p ps ih =>
    rw [applyPairs, ih, List.reverse_cons, alookup_append, alookup_dictInsert]
    cases halo : alookup k ps.reverse
    · by_cases hpk : p.1 = k <;>
        simp [ofirst, alookup, hpk, beq_eq_false_iff_ne]
    · simp [ofirst]

theorem nodup_keys_applyPairs {α : Type} (d : List (String × α))
    (ps : List (String × α)) (h : (d.map Prod.fst).Nodup) :
    ((applyPairs d ps).map Prod.fst).Nodup := by
  induction ps generalizing d with
  | nil => exact h
  | cons p ps ih => exact ih _ (nodup_keys_dictInsert _ _ _ h)

theorem applyPairs_eq_append {α : Type} (d : List (String × α))
    (ps : List (String × α)) (hnd : (ps.map Prod.fst).Nodup)
    (hdisj : ∀ kk ∈ ps.map Prod.fst, kk ∉ d.map Prod.fst) :
    applyPairs d ps = d ++ ps := by
  induction ps generalizing d with
  | nil => simp [applyPairs]
  | cons p ps ih =>
    rw [List.map_cons, List.nodup_cons] at hnd
    obtain ⟨hhead, htail⟩ := hnd
    have h1 : p.1 ∉ d.map Prod.fst := hdisj p.1 (by simp)
    have hdisj2 : ∀ kk ∈ ps.map Prod.fst,
        kk ∉ (d ++ [(p.1, p.2)]).map Prod.fst := by
      intro kk hkk
      rw [List.map_append]
      simp only [List.mem_append]
      rintro (hc | hc)
      · exact hdisj kk (by rw [List.map_cons]; exact List.mem_cons_of_mem _ hkk) hc
      · have hkk1 : kk = p.1 := by simpa using hc
        exact hhead (hkk1 ▸ hkk)
    rw [applyPairs, dictInsert_append_of_not_mem _ _ _ h1,
      ih (d ++ [(p.1, p.2)]) htail hdisj2]
    simp

theorem get_html_fail_step (transport : Nat → TransportResult) (r : Nat)
    (hr : r < max_retries) (hf : failsAt transport r) :
    get_html transport r =
      ((get_html transport (r + 1)).1,
        SleepEvent.jitter :: SleepEvent.backoff (2 ^ r) ::
          (get_html transport (r + 1)).2) := by
  rw [get_html.eq_def]
  cases htr : transport r with
  | response s t =>
    have hs : s ≠ 200 := hf s t htr
    simp [htr, hs, hr]
  | exn => simp [htr, hr]

theorem get_html_fail_last (transport : Nat → TransportResult)
    (hf : failsAt transport max_retries) :
    get_html transport max_retries = (none, [SleepEvent.jitter]) := by
  rw [get_html.eq_def]
  cases htr : transport max_retries with
  | response s t =>
    have hs : s ≠ 200 := hf s t htr
    simp [htr, hs]
  | exn => simp [htr]

theorem get_html_success_step (transport : Nat → TransportResult) (r : Nat)
    (B : String) (h : transport r = TransportResult.response 200 B) :
    get_html transport r = (some B, [SleepEvent.jitter]) := by
  rw [get_html.eq_def]
  simp [h]

theorem nodup_snoc_of_any_false (cities : List City) (name u : String)
    (hany : cities.any (fun c => c.1 == name) = false)
    (h : (cities.map Prod.fst).Nodup) :
    ((cities ++ [(name, u)]).map Prod.fst).Nodup := by
  have hmem : name ∉ cities.map Prod.fst := by
    rw [List.any_eq_false] at hany
    intro hn
    obtain ⟨c, hc, hc1⟩ := List.mem_map.mp hn
    exact hany c hc (by simp [hc1])
  rw [List.map_append, List.nodup_append]
  refine ⟨h, by simp, ?_⟩
  intro x hx
  simp only [List.map_cons, List.map_nil, List.mem_singleton]
  intro hxn
  exact hmem (hxn ▸ hx)

theorem collectLinksD_nodup (ls : List ALink) :
    ∀ cities out, (cities.map Prod.fst).Nodup →
      collectLinksD cities ls = Except.ok out → (out.map Prod.fst).Nodup := by
  induction ls with
  | nil =>
    intro cities out h hok
    rw [collectLinksD] at hok
    cases hok
    exact h
  | cons l ls ih =>
    intro cities out h hok
    cases hl : l.href with
    | none => simp [collectLinksD, hl] at hok
    | some u =>
      cases hany : cities.any (fun c => c.1 == pyStrip l.text) with
      | true =>
        simp only [collectLinksD, hl, hany, if_true] at hok
        exact ih cities out h hok
      | false =>
        simp only [collectLinksD, hl, hany, Bool.false_eq_true, if_false] at hok
        exact ih _ out (nodup_snoc_of_any_false cities (pyStrip l.text) u hany h) hok

theorem collectGroupsD_nodup (gs : List (List ALink)) :
    ∀ cities out, (cities.map Prod.fst).Nodup →
      collectGroupsD cities gs = Except.ok out → (out.map Prod.fst).Nodup := by
  induction gs with
  | nil =>
    intro cities out h hok
    rw [collectGroupsD] at hok
    cases hok
    exact h
  | cons g gs ih =>
    intro cities out h hok
    cases hg : collectLinksD cities g with
    | error e => simp [collectGroupsD, hg] at hok
    | ok c =>
      simp only [collectGroupsD, hg] at hok
      exact ih c out (collectLinksD_nodup g cities c h hg) hok

theorem collectTableRows_nodup (rows : List (List ALink)) :
    ∀ cities out, (cities.map Prod.fst).Nodup →
      collectTableRows cities rows = Except.ok out → (out.map Prod.fst).Nodup := by
  induction rows with
  | nil =>
    intro cities out h hok
    rw [collectTableRows] at hok
    cases hok
    exact h
  | cons row rows ih =>
    intro cities out h hok
    cases hr : row.head? with
    | none =>
      simp only [collectTableRows, hr] at hok
      exact ih cities out h hok
    | some l =>
      cases hl : l.href with
      | none => simp [collectTableRows, hr, hl] at hok
      | some u =>
        cases hany : cities.any (fun c => c.1 == pyStrip l.text) with
        | true =>
          simp only [collectTableRows, hr, hl, hany, if_true] at hok
          exact ih cities out h hok
        | false =>
          simp only [collectTableRows, hr, hl, hany, Bool.false_eq_true,
            if_false] at hok
          exact ih _ out (nodup_snoc_of_any_false cities (pyStrip l.text) u hany h)
            hok

theorem collectTables_nodup (ts : List (List (List ALink))) :
    ∀ cities out, (cities.map Prod.fst).Nodup →
      collectTables cities ts = Except.ok out → (out.map Prod.fst).Nodup := by
  induction ts with
  | nil =>
    intro cities out h hok
    rw [collectTables] at hok
    cases hok
    exact h
  | cons t ts ih =>
    intro cities out h hok
    cases ht : collectTableRows cities (t.drop 1) with
    | error e =>
      rw [List.drop_one] at ht
      simp [collectTables, List.drop_one, ht] at hok
    | ok c =>
      have hnd := collectTableRows_nodup (t.drop 1) cities c h ht
      rw [List.drop_one] at ht
      simp only [collectTables, List.drop_one, ht] at hok
      exact ih c out hnd hok

theorem map_fst_norm (l : List City) :
    (l.map (fun c => (c.1, normHref c.2))).map Prod.fst = l.map Prod.fst := by
  induction l with
  | nil => rfl
  | cons c cs ih => simp [ih]

theorem parse_citiesE_ok_chain (page : LandingPage) (cs : List City)
    (h : parse_citiesE page = Except.ok cs) :
    ∃ c1 c2 c3,
      collectSections1 [] page.letterSections = Except.ok c1 ∧
      (match page.keyCities with
       | none => Except.ok c1
       | some sibs => collectGroupsD c1 sibs) = Except.ok c2 ∧
      collectTables c2 page.tables = Except.ok c3 ∧
      cs = c3.map (fun c => (c.1, normHref c.2)) := by
  unfold parse_citiesE at h
  split at h
  next e h1 => cases h
  next c1 h1 =>
    split at h
    next e h2 => cases h
    next c2 h2 =>
      split at h
      next e h3 => cases h
      next c3 h3 =>
        cases h
        exact ⟨c1, c2, c3, h1, h2, h3, rfl⟩

theorem startsWithSlash_normHref (u : String) :
    startsWithSlash (normHref u) = true := by
  unfold normHref
  cases hu : startsWithSlash u
  · simp only [Bool.false_eq_true, if_false]
    cases u
    rfl
  · simp [hu]

/-- Claim C1 is false on the code: the alphabetic-section heuristic (the
first one) appends every link of a letter section without any duplicate
check, so a landing page whose letter section lists the name `X` twice
yields a city list with two entries named `X`. -/
theorem claim_C1_counterexample :
    ¬ ((parse_cities (some dupPage)).map Prod.fst).Nodup := by
  decide

/-- Claim C1 (amended): provided the alphabetic-section pass itself produces
no duplicate names, the merged city list of `parse_cities` contains no two
entries with equal names — heuristics 2 (key cities) and 3 (ranking tables)
add a city only if no previously collected city has the identical name. -/
theorem claim_C1_amended_nodup (page : LandingPage)
    (h : ∀ cs, collectSections1 [] page.letterSections = Except.ok cs →
      (cs.map Prod.fst).Nodup) :
    ((parse_cities (some page)).map Prod.fst).Nodup := by
  simp only [parse_cities]
  split
  · simp
  next cs hE =>
    obtain ⟨c1, c2, c3, h1, h2, h3, hcs⟩ := parse_citiesE_ok_chain page cs hE
    subst hcs
    rw [map_fst_norm]
    have hn1 := h c1 h1
    have hn2 : (c2.map Prod.fst).Nodup := by
      cases hkc : page.keyCities with
      | none =>
        simp only [hkc] at h2
        cases h2
        exact hn1
      | some sibs =>
        simp only [hkc] at h2
        exact collectGroupsD_nodup sibs c1 c2 hn1 h2
    exact collectTables_nodup page.tables c2 c3 hn2 h3

/-- Witness for the amended C1 at `mixedPage`, a page exercising all three
heuristics with cross-heuristic duplicate names. -/
theorem claim_C1_amended_nodup_witness :
    ((parse_cities (some mixedPage)).map Prod.fst).Nodup :=
  claim_C1_amended_nodup mixedPage (fun cs hcs => by
    rw [show collectSections1 [] mixedPage.letterSections =
      Except.ok [("A", "/a")] from rfl] at hcs
    cases hcs
    decide)

/-- Claim C6: when the body of `parse_cities` raises (modelled by
`parse_citiesE` returning `Except.error`), the caller receives the empty
list — not the partially accumulated entries — and no exception escapes. -/
theorem claim_C6_exception_empty (page : LandingPage) (e : String)
    (h : parse_citiesE page = Except.error e) :
    parse_cities (some page) = [] := by
  simp only [parse_cities, h]

/-- Witness for C6 at `errPage`, whose second link lacks an `href` attribute
so the extraction errors after one city was already accumulated. -/
theorem claim_C6_witness : parse_cities (some errPage) = [] :=
  claim_C6_exception_empty errPage "KeyError: href" rfl

/-- Claim C7: every href in the list returned by `parse_cities` starts with
`/` (hrefs lacking the prefix get it, the rest are unchanged, via
`normHref`). -/
theorem claim_C7_href_slash (html : Option LandingPage) (c : City)
    (hc : c ∈ parse_cities html) : startsWithSlash c.2 = true := by
  cases html with
  | none => simp [parse_cities] at hc
  | some page =>
    simp only [parse_cities] at hc
    split at hc
    · simp at hc
    next cs hE =>
      obtain ⟨c1, c2, c3, h1, h2, h3, hcs⟩ := parse_citiesE_ok_chain page cs hE
      subst hcs
      obtain ⟨cr, hcr, hceq⟩ := List.mem_map.mp hc
      rw [← hceq]
      exact startsWithSlash_normHref cr.2

/-- Witness for C7 at the spec's scenario page: `<a href="city/beijing">`
is normalised to `/city/beijing`. -/
theorem claim_C7_witness :
    ("Beijing", "/city/beijing") ∈ parse_cities (some bjPage) ∧
      startsWithSlash ("Beijing", "/city/beijing").2 = true :=
  ⟨by decide, claim_C7_href_slash (some bjPage) ("Beijing", "/city/beijing")
    (by decide)⟩

theorem buildRecord_nil_headers (cols : List Cell) : buildRecord [] cols = [] := by
  unfold buildRecord
  generalize cols.enum = l
  induction l with
  | nil => rfl
  | cons ic l ih => exact ih

theorem buildRecord_fold_aux (headers : List String) (l : List (Nat × Cell)) :
    ∀ d : StationRecord,
      l.foldl
        (fun d ic =>
          match headers.get? ic.1 with
          | some h => dictInsert d h (pyStrip ic.2.text)
          | none => d)
        d =
      applyPairs d
        (l.filterMap
          (fun ic => (headers.get? ic.1).map (fun h => (h, pyStrip ic.2.text)))) := by
  induction l with
  | nil => intro d; rfl
  | cons ic l ih =>
    intro d
    rw [List.foldl_cons, List.filterMap_cons]
    cases hic : headers.get? ic.1 with
    | none => simp only [hic, Option.map_none']; exact ih d
    | some h =>
      simp only [hic, Option.map_some']
      rw [applyPairs]
      exact ih (dictInsert d h (pyStrip ic.2.text))

theorem buildRecord_eq_applyPairs (headers : List String) (cols : List Cell) :
    buildRecord headers cols = applyPairs [] (headerPairs headers cols) := by
  unfold buildRecord headerPairs
  exact buildRecord_fold_aux headers cols.enum []

theorem keys_dictInsert_mem {α : Type} (d : List (String × α)) (k0 : String)
    (v : α) (k : String) (h : k ∈ (dictInsert d k0 v).map Prod.fst) :
    k ∈ d.map Prod.fst ∨ k = k0 := by
  cases hany : d.any (fun p => p.1 == k0)
  · simp only [dictInsert, hany, Bool.false_eq_true, if_false] at h
    rw [List.map_append, List.mem_append] at h
    rcases h with hc | hc
    · exact Or.inl hc
    · simp only [List.map_cons, List.map_nil, List.mem_singleton] at hc
      exact Or.inr hc
  · simp only [dictInsert, hany, if_true] at h
    rw [map_fst_replace] at h
    exact Or.inl h

theorem keys_applyPairs_mem {α : Type} (ps : List (String × α)) :
    ∀ (d : List (String × α)) (k : String),
      k ∈ (applyPairs d ps).map Prod.fst →
      k ∈ d.map Prod.fst ∨ k ∈ ps.map Prod.fst := by
  induction ps with
  | nil => intro d k hk; exact Or.inl hk
  | cons p ps ih =>
    intro d k hk
    rcases ih (dictInsert d p.1 p.2) k hk with hc | hc
    · rcases keys_dictInsert_mem d p.1 p.2 k hc with hc2 | hc2
      · exact Or.inl hc2
      · exact Or.inr (by simp [hc2])
    · exact Or.inr (by simp only [List.map_cons, List.mem_cons]; exact Or.inr hc)

theorem headerPairs_keys_mem (headers : List String) (cols : List Cell) :
    ∀ k ∈ (headerPairs headers cols).map Prod.fst, k ∈ headers := by
  intro k hk
  obtain ⟨p, hp, hp1⟩ := List.mem_map.mp hk
  obtain ⟨ic, _, hfm⟩ := List.mem_filterMap.mp hp
  obtain ⟨h0, hh0, hph⟩ := Option.map_eq_some'.mp hfm
  have : p.1 = h0 := by rw [← hph]
  rw [← hp1, this]
  exact List.get?_mem hh0

/-- Claim C9: under header-driven extraction, duplicate header labels make
later columns overwrite earlier ones — looking up any label in the built
record finds the value assigned by the last column (within the header count)
bearing that label (i.e. the first match in the reversed assignment list) —
the record's keys are unique, and its size never exceeds the number of
distinct header labels. -/
theorem claim_C9_last_wins (headers : List String) (cols : List Cell) :
    ((buildRecord headers cols).map Prod.fst).Nodup ∧
    (∀ h, alookup h (buildRecord headers cols) =
      alookup h (headerPairs headers cols).reverse) ∧
    (buildRecord headers cols).length ≤ headers.dedup.length := by
  have heq := buildRecord_eq_applyPairs headers cols
  have hnd : ((buildRecord headers cols).map Prod.fst).Nodup := by
    rw [heq]
    exact nodup_keys_applyPairs [] _ (by simp)
  refine ⟨hnd, ?_, ?_⟩
  · intro h
    rw [heq, alookup_applyPairs]
    exact ofirst_none_right _
  · have hsub : ∀ k ∈ (buildRecord headers cols).map Prod.fst, k ∈ headers := by
      intro k hk
      rw [heq] at hk
      rcases keys_applyPairs_mem _ [] k hk with hc | hc
      · simp at hc
      · exact headerPairs_keys_mem headers cols k hc
    calc (buildRecord headers cols).length
        = ((buildRecord headers cols).map Prod.fst).length :=
          (List.length_map _ _).symm
      _ = ((buildRecord headers cols).map Prod.fst).toFinset.card :=
          (List.toFinset_card_of_nodup hnd).symm
      _ ≤ headers.toFinset.card :=
          Finset.card_le_card (fun x hx =>
            List.mem_toFinset.mpr (hsub x (List.mem_toFinset.mp hx)))
      _ = headers.dedup.length := List.card_toFinset headers

theorem stations_fold_fallback (rows2 : List (List Cell)) :
    ∀ acc : List StationRecord,
      rows2.foldl
        (fun stations row =>
          if 3 ≤ (row.filter (fun c => !c.isTh)).length then
            stations ++ [fallbackRecord (row.filter (fun c => !c.isTh))]
          else stations)
        acc =
      acc ++ (rows2.filter
          (fun row => 3 ≤ (row.filter (fun c => !c.isTh)).length)).map
        (fun row => fallbackRecord (row.filter (fun c => !c.isTh))) := by
  induction rows2 with
  | nil => intro acc; simp
  | cons row rows2 ih =>
    intro acc
    rw [List.foldl_cons]
    by_cases hlen : 3 ≤ (row.filter (fun c => !c.isTh)).length
    · rw [if_pos hlen, ih, List.filter_cons_of_pos (by simpa using hlen),
        List.map_cons]
      simp
    · rw [if_neg hlen, ih, List.filter_cons_of_neg (by simpa using hlen)]

theorem fallbackRecord_keys (cols : List Cell) (h : 3 ≤ cols.length) :
    (fallbackRecord cols).map Prod.fst = sixFieldKeys := by
  cases cols with
  | nil => exact absurd h (by decide)
  | cons c0 r0 =>
    cases r0 with
    | nil => exact absurd h (by simp)
    | cons c1 r1 =>
      cases r1 with
      | nil => exact absurd h (by simp)
      | cons c2 rest => rfl

theorem alookup_fallbackRecord (c0 c1 c2 : Cell) (rest : List Cell) :
    alookup "PM2.5" (fallbackRecord (c0 :: c1 :: c2 :: rest)) =
      some (((rest.get? 0).map (fun c => pyStrip c.text)).getD "N/A") ∧
    alookup "PM10" (fallbackRecord (c0 :: c1 :: c2 :: rest)) =
      some (((rest.get? 1).map (fun c => pyStrip c.text)).getD "N/A") ∧
    alookup "首要污染物" (fallbackRecord (c0 :: c1 :: c2 :: rest)) =
      some (((rest.get? 2).map (fun c => pyStrip c.text)).getD "N/A") := by
  refine ⟨?_, ?_, ?_⟩ <;> simp [fallbackRecord, alookup]

theorem fallbackRecord_defaults (cols : List Cell) (h : 3 ≤ cols.length) :
    (cols.length ≤ 3 → alookup "PM2.5" (fallbackRecord cols) = some "N/A") ∧
    (cols.length ≤ 4 → alookup "PM10" (fallbackRecord cols) = some "N/A") ∧
    (cols.length ≤ 5 → alookup "首要污染物" (fallbackRecord cols) = some "N/A") := by
  cases cols with
  | nil => exact absurd h (by decide)
  | cons c0 r0 =>
    cases r0 with
    | nil => exact absurd h (by simp)
    | cons c1 r1 =>
      cases r1 with
      | nil => exact absurd h (by simp)
      | cons c2 rest =>
        obtain ⟨hA, hB, hC⟩ := alookup_fallbackRecord c0 c1 c2 rest
        refine ⟨fun hl => ?_, fun hl => ?_, fun hl => ?_⟩
        · rw [hA, List.get?_eq_none.mpr
            (by simp only [List.length_cons] at hl; omega)]
          rfl
        · rw [hB, List.get?_eq_none.mpr
            (by simp only [List.length_cons] at hl; omega)]
          rfl
        · rw [hC, List.get?_eq_none.mpr
            (by simp only [List.length_cons] at hl; omega)]
          rfl

/-- Claim C3: when the first table's header row yields no labels, every
emitted record — one per later row with at least 3 data cells — is the fixed
six-field fallback record: keys 监测站, AQI, 空气质量等级, PM2.5, PM10,
首要污染物 mapped positionally from columns 0-5, with `"N/A"` for each of
the last three keys whose column is absent in the row. -/
theorem claim_C3_fallback_six_fields (page : StationPage) (city : String)
    (t : STable) (ts : List STable) (rows2 : List (List Cell))
    (h1 : page.tables = t :: ts) (h2 : t.rows = [] :: rows2)
    (h3 : rows2 ≠ []) :
    parse_stations (some page) city =
      (rows2.filter (fun row => 3 ≤ (row.filter (fun c => !c.isTh)).length)).map
        (fun row => fallbackRecord (row.filter (fun c => !c.isTh))) ∧
    (∀ r ∈ parse_stations (some page) city, r.map Prod.fst = sixFieldKeys) ∧
    (∀ cols : List Cell, 3 ≤ cols.length →
      (cols.length ≤ 3 → alookup "PM2.5" (fallbackRecord cols) = some "N/A") ∧
      (cols.length ≤ 4 → alookup "PM10" (fallbackRecord cols) = some "N/A") ∧
      (cols.length ≤ 5 →
        alookup "首要污染物" (fallbackRecord cols) = some "N/A")) := by
  have hgt : ¬ (([] :: rows2 : List (List Cell)).length ≤ 1) := by
    simp only [List.length_cons]
    intro hh
    have hz : rows2.length = 0 := by omega
    exact h3 (List.length_eq_zero.mp hz)
  have hmain : parse_stations (some page) city =
      (rows2.filter
          (fun row => 3 ≤ (row.filter (fun c => !c.isTh)).length)).map
        (fun row => fallbackRecord (row.filter (fun c => !c.isTh))) := by
    simp only [parse_stations, h1, h2, if_neg hgt, List.drop_succ_cons,
      List.drop_zero, List.headD_cons, List.map_nil, buildRecord_nil_headers,
      reduceIte]
    rw [stations_fold_fallback rows2 ([] : List StationRecord)]
    simp
  refine ⟨hmain, ?_, fun cols hc => fallbackRecord_defaults cols hc⟩
  intro r hr
  rw [hmain] at hr
  obtain ⟨row, hrow, hrfb⟩ := List.mem_map.mp hr
  have hlen : 3 ≤ (row.filter (fun c => !c.isTh)).length := by
    have := List.of_mem_filter hrow
    simpa using this
  rw [← hrfb]
  exact fallbackRecord_keys _ hlen

/-- Witness for C3 at `fallbackPage`: empty header row, one data row with
exactly three `td` cells, so the last three fields all default to `"N/A"`. -/
theorem claim_C3_witness :
    parse_stations (some fallbackPage) "c" =
      [[("监测站", "s1"), ("AQI", "50"), ("空气质量等级", "良"),
        ("PM2.5", "N/A"), ("PM10", "N/A"), ("首要污染物", "N/A")]] :=
  ((claim_C3_fallback_six_fields fallbackPage "c"
      ⟨[[], [⟨false, "s1"⟩, ⟨false, "50"⟩, ⟨false, "良"⟩]]⟩ []
      [[⟨false, "s1"⟩, ⟨false, "50"⟩, ⟨false, "良"⟩]]
      rfl rfl (by decide)).1).trans (by decide)

/-- Claim C8: `parse_stations` returns the empty list when the input markup
is falsy, when the page has no table, and when the first table has at most
one row (header only or empty). -/
theorem claim_C8_empty_cases (city : String) (page : StationPage)
    (h : ∀ t, page.tables.head? = some t → t.rows.length ≤ 1) :
    parse_stations none city = [] ∧ parse_stations (some page) city = [] := by
  refine ⟨rfl, ?_⟩
  cases hts : page.tables with
  | nil => simp [parse_stations, hts]
  | cons t ts =>
    have hle : t.rows.length ≤ 1 := h t (by rw [hts]; rfl)
    simp [parse_stations, hts, hle]

/-- Witness for C8 at `headerOnlyPage` (single table, single header row). -/
theorem claim_C8_witness :
    parse_stations none "c" = [] ∧
      parse_stations (some headerOnlyPage) "c" = [] :=
  claim_C8_empty_cases "c" headerOnlyPage (fun t ht => by cases ht; decide)

/-- Claim C2: on a transport that fails on every attempt, `get_html` started
with retry count 0 performs exactly 3 retries (4 total attempts, a jitter
sleep before each) with backoff waits of 2^0, 2^1, 2^2 time-units before the
retries, and then returns the failure signal `none` without raising. -/
theorem claim_C2_retry_exhaustion (transport : Nat → TransportResult)
    (h : ∀ n, failsAt transport n) :
    get_html transport 0 =
      (none, [SleepEvent.jitter, SleepEvent.backoff 1, SleepEvent.jitter,
        SleepEvent.backoff 2, SleepEvent.jitter, SleepEvent.backoff 4,
        SleepEvent.jitter]) := by
  have h3 : get_html transport 3 = (none, [SleepEvent.jitter]) :=
    get_html_fail_last transport (h 3)
  rw [get_html_fail_step transport 0 (by norm_num [max_retries]) (h 0)]
  norm_num
  rw [get_html_fail_step transport 1 (by norm_num [max_retries]) (h 1)]
  norm_num
  rw [get_html_fail_step transport 2 (by norm_num [max_retries]) (h 2)]
  norm_num
  rw [h3]
  exact ⟨rfl, rfl⟩

/-- Witness for C2: the always-raising transport. -/
theorem claim_C2_witness :
    get_html alwaysExn 0 =
      (none, [SleepEvent.jitter, SleepEvent.backoff 1, SleepEvent.jitter,
        SleepEvent.backoff 2, SleepEvent.jitter, SleepEvent.backoff 4,
        SleepEvent.jitter]) :=
  claim_C2_retry_exhaustion alwaysExn
    (fun n s t hh => by simp [alwaysExn] at hh)

/-- Claim C5: on a transport that fails exactly twice and then succeeds with
body `B`, `get_html` started with retry count 0 returns `B` after exactly 2
backoff waits of increasing duration (2^0 then 2^1 time-units) before the
2nd and 3rd attempts, each attempt additionally preceded by its jitter
sleep. -/
theorem claim_C5_retry_then_success (transport : Nat → TransportResult)
    (B : String) (h0 : failsAt transport 0) (h1 : failsAt transport 1)
    (h2 : transport 2 = TransportResult.response 200 B) :
    get_html transport 0 =
      (some B, [SleepEvent.jitter, SleepEvent.backoff 1, SleepEvent.jitter,
        SleepEvent.backoff 2, SleepEvent.jitter]) := by
  rw [get_html_fail_step transport 0 (by norm_num [max_retries]) h0]
  norm_num
  rw [get_html_fail_step transport 1 (by norm_num [max_retries]) h1]
  norm_num
  rw [get_html_success_step transport 2 B h2]
  exact ⟨rfl, rfl⟩

/-- Witness for C5: the fail-twice-then-succeed transport. -/
theorem claim_C5_witness :
    get_html failTwice 0 =
      (some "BODY", [SleepEvent.jitter, SleepEvent.backoff 1,
        SleepEvent.jitter, SleepEvent.backoff 2, SleepEvent.jitter]) :=
  claim_C5_retry_then_success failTwice "BODY"
    (fun s t hh => by simp [failTwice] at hh)
    (fun s t hh => by simp [failTwice] at hh)
    (by norm_num [failTwice])

theorem citySuccess_fst (fetchS : String → Option StationPage) (c : City)
    (p : String × List StationRecord) (h : citySuccess fetchS c = some p) :
    p.1 = c.1 := by
  unfold citySuccess at h
  split at h
  · cases h
  · dsimp only at h
    split at h
    · cases h
    · cases h
      rfl

theorem crawl_phase2_loop_eq (fetchS : String → Option StationPage)
    (cities : List City) :
    ∀ acc, crawl_phase2_loop fetchS acc cities =
      applyPairs acc (cities.filterMap (citySuccess fetchS)) := by
  induction cities with
  | nil => intro acc; rfl
  | cons c cs ih =>
    intro acc
    cases hf : fetchS c.2 with
    | none =>
      simp only [crawl_phase2_loop, hf, List.filterMap_cons, citySuccess]
      exact ih acc
    | some page =>
      by_cases hs : parse_stations (some page) c.1 = []
      · simp only [crawl_phase2_loop, hf, hs, List.filterMap_cons, citySuccess,
          reduceIte]
        exact ih acc
      · simp only [crawl_phase2_loop, hf, hs, List.filterMap_cons, citySuccess,
          if_neg hs]
        exact ih (dictInsert acc c.1 (parse_stations (some page) c.1))

theorem successes_keys_sublist (fetchS : String → Option StationPage)
    (cities : List City) :
    List.Sublist ((cities.filterMap (citySuccess fetchS)).map Prod.fst)
      (cities.map Prod.fst) := by
  induction cities with
  | nil => simp
  | cons c cs ih =>
    rw [List.filterMap_cons]
    cases hf : citySuccess fetchS c with
    | none =>
      rw [List.map_cons]
      exact List.Sublist.cons c.1 ih
    | some p =>
      rw [List.map_cons, List.map_cons, citySuccess_fst fetchS c p hf]
      exact List.Sublist.cons₂ c.1 ih

/-- Claim C4: in phase 2 with pairwise-distinct city names, a fetch failure
or an empty extracted station list makes the city be skipped while
processing continues, and the returned mapping holds exactly the
successfully processed cities, in order, each mapped to its station list. -/
theorem claim_C4_phase2_successes (fetchS : String → Option StationPage)
    (cities : List City) (hne : cities ≠ [])
    (hnd : (cities.map Prod.fst).Nodup) :
    crawl_phase2 fetchS cities =
      some (cities.filterMap (citySuccess fetchS)) := by
  rw [crawl_phase2, if_neg hne, crawl_phase2_loop_eq]
  rw [applyPairs_eq_append [] (cities.filterMap (citySuccess fetchS))
    (List.Nodup.sublist (successes_keys_sublist fetchS cities) hnd)
    (fun kk _ hc => by simp at hc)]
  simp

/-- Witness for C4, the spec's orchestrator scenario: first city's fetch
fails, second succeeds with one station row; only the second city ends up in
the mapping, with its single-element station list. -/
theorem claim_C4_witness :
    crawl_phase2 fetchOnlyS [("F", "/f"), ("S", "/s")] =
      some [("S", [[("Station", "StationX"), ("AQI", "50"),
        ("Level", "Good")]])] :=
  (claim_C4_phase2_successes fetchOnlyS [("F", "/f"), ("S", "/s")]
    (by decide) (by decide)).trans (by decide)

/-- Claim C10: duplicate names in the phase-2 input are allowed (heuristic 1
does not deduplicate); the result mapping keeps at most one station list per
name — keys are unique — and looking a name up yields the station list of
the last successfully processed occurrence of that name (the first match in
the reversed success list). -/
theorem claim_C10_duplicate_last_wins (fetchS : String → Option StationPage)
    (cities : List City) (hne : cities ≠ []) (n : String) :
    crawl_phase2 fetchS cities =
      some (crawl_phase2_loop fetchS [] cities) ∧
    ((crawl_phase2_loop fetchS [] cities).map Prod.fst).Nodup ∧
    alookup n (crawl_phase2_loop fetchS [] cities) =
      alookup n (cities.filterMap (citySuccess fetchS)).reverse := by
  refine ⟨by rw [crawl_phase2, if_neg hne], ?_, ?_⟩
  · rw [crawl_phase2_loop_eq]
    exact nodup_keys_applyPairs [] _ (by simp)
  · rw [crawl_phase2_loop_eq, alookup_applyPairs]
    exact ofirst_none_right _

/-- Witness for C10: the same name twice, both occurrences successful; the
mapping holds the second occurrence's station list. -/
theorem claim_C10_witness :
    crawl_phase2 fetchBoth [("D", "/1"), ("D", "/2")] =
      some (crawl_phase2_loop fetchBoth [] [("D", "/1"), ("D", "/2")]) ∧
    ((crawl_phase2_loop fetchBoth [] [("D", "/1"), ("D", "/2")]).map
      Prod.fst).Nodup ∧
    alookup "D" (crawl_phase2_loop fetchBoth [] [("D", "/1"), ("D", "/2")]) =
      alookup "D" ([("D", "/1"), ("D", "/2")].filterMap
        (citySuccess fetchBoth)).reverse :=
  claim_C10_duplicate_last_wins fetchBoth [("D", "/1"), ("D", "/2")]
    (by decide) "D"
